import Mathlib

/-!
Shallow embedding of `pkg/util/httpbackend/httpbackend.go`: the HTTP backend
dispatch engine (server-pool filtering, load-balancing policies, spec
validation, and the response-returning dispatch path), together with theorems
settling the specification claims about it.

Go machine integers are modelled as `Nat`/`Int` with explicit reductions
modulo `2^64`/`2^32` where the source relies on fixed-width arithmetic; Go's
signed `%` is `Int.tmod`; a Go panic (index out of range, modulo by zero) is
modelled as `none`.
-/

namespace HTTPBackend

/-- Policy name constant `policyRoundRobin` from the source. -/
def policyRoundRobin : String := "roundRobin"

/-- Policy name constant `policyRandom` from the source. -/
def policyRandom : String := "random"

/-- Policy name constant `policyIPHash` from the source. -/
def policyIPHash : String := "ipHash"

/-- Policy name constant `policyHeaderHash` from the source. -/
def policyHeaderHash : String := "headerHash"

/-- Go constant `http.StatusInternalServerError` (Go standard library). -/
def StatusInternalServerError : Nat := 500

/-- Go constant `http.StatusServiceUnavailable` (Go standard library). -/
def StatusServiceUnavailable : Nat := 503

/-- Source type `Server`: a backend server: a URL plus a list of tags. -/
structure Server where
  URL : String
  Tags : List String
  deriving DecidableEq, Repr

/-- Source type `LoadBalance`: load balance for multiple servers. -/
structure LoadBalance where
  Policy : String
  HeaderHashKey : String
  deriving DecidableEq, Repr

/-- Source type `Spec` describes the HTTPBackend.  The `Adaptor` and `MemoryCache`
collaborator specs are out-of-scope collaborators; only their presence
(`!= nil` in Go) matters to the dispatch logic, so they are modelled as
booleans recording whether they are configured. -/
structure Spec where
  ServersTags : List String
  Servers : List Server
  LoadBalance : LoadBalance
  Adaptor : Bool
  MemoryCache : Bool
  deriving DecidableEq, Repr

/-- Modelled from the spec: `common.StrInSlice` (package `pkg/common`, not in
the shown sources) tests membership of a string in a slice of strings; the
spec describes `pickServers` as a set-subset test over tags. -/
def StrInSlice (s : String) (l : List String) : Bool :=
  l.contains s

/-- Source function `pickServers` picks servers by serversTag (faithful to the source:
first branch returns the whole list when the filter is empty and no server
has a tag, otherwise keep the servers whose tags contain every filter tag). -/
def Spec.pickServers (s : Spec) : List Server :=
  let serverHasTag := s.Servers.any (fun server => server.Tags.length != 0)
  if s.ServersTags.isEmpty && !serverHasTag then
    s.Servers
  else
    s.Servers.filter (fun server =>
      s.ServersTags.all (fun tag => StrInSlice tag server.Tags))

/-- Source method `Spec.Validate` validates Spec; `some msg` models a non-nil `error`. -/
def Spec.Validate (s : Spec) : Option String :=
  let servers := s.pickServers
  if servers.length = 0 then
    some "serversTags picks none of servers"
  else
    none

/-- Source method `LoadBalance.Validate` validates LoadBalance; `some msg` models a
non-nil `error`. -/
def LoadBalance.Validate (lb : LoadBalance) : Option String :=
  if lb.Policy == policyHeaderHash && lb.HeaderHashKey.length == 0 then
    some "headerHash needs to speficy headerHashKey"
  else
    none

/-- An HTTP header: a list of key-value entries (keys assumed already in
canonical form, as Go's `http.Header` stores them). -/
structure HTTPHeader where
  entries : List (String × String)
  deriving DecidableEq, Repr

/-- Go `http.Header.Get`: the first value stored under the key, or the
empty string when the header is absent. -/
def HTTPHeader.Get (h : HTTPHeader) (key : String) : String :=
  match h.entries.find? (fun p => p.1 == key) with
  | some p => p.2
  | none => ""

/-- The narrow request surface of the HTTP context consumed by the
dispatcher: method, path, headers, resolved client IP and an opaque body. -/
structure Request where
  Method : String
  Path : String
  Header : HTTPHeader
  RealIP : String
  Body : String
  deriving DecidableEq, Repr

/-- Source type `HTTPBackend`: runtime state built by `New`: the spec, the filtered
server list, the round-robin counter (a Go `uint64`, kept as a `Nat`
reduced modulo `2^64` by every increment), whether an adaptor and a memory
cache are configured, and how many `ResponseGotFunc` callbacks are
registered. -/
structure Backend where
  spec : Spec
  servers : List Server
  count : Nat
  adaptor : Bool
  memoryCache : Bool
  responseGotFuncs : Nat
  deriving DecidableEq, Repr

/-- Source function `New` creates a HTTPBackend.  It has no error return: every spec,
validated or not, yields a backend whose pool is `spec.pickServers`. -/
def New (spec : Spec) : Backend :=
  { spec := spec
    servers := spec.pickServers
    count := 0
    adaptor := spec.Adaptor
    memoryCache := spec.MemoryCache
    responseGotFuncs := 0 }

/-- Source method `OnResponseGot` registers a ResponseGotFunc (only the number of
registered callbacks is observable to the dispatch trace). -/
def Backend.OnResponseGot (b : Backend) : Backend :=
  { b with responseGotFuncs := b.responseGotFuncs + 1 }

/-- Source function `hash32Once`: 32-bit FNV-1a over the UTF-8 bytes of the key, exactly as
Go's `hash/fnv` `New32a` computes it (offset basis 2166136261, prime
16777619, arithmetic modulo `2^32`). -/
def hash32Once (key : String) : Nat :=
  key.toUTF8.toList.foldl
    (fun h c => ((h ^^^ c.toNat) * 16777619) % 4294967296) 2166136261

/-- Reinterpret a Go `uint64` value as a Go `int` (two's-complement
64-bit). -/
def intOfUint64 (u : Nat) : Int :=
  if u < 2 ^ 63 then (u : Int) else (u : Int) - 2 ^ 64

/-- Indexing `b.servers[i % len(b.servers)]` with Go semantics: `%` on `int` is
truncated remainder (`Int.tmod`); modulo by zero and a negative index both
panic, modelled as `none`. -/
def Backend.selectAt (b : Backend) (i : Int) : Option Server :=
  if b.servers.length = 0 then none
  else
    let r := Int.tmod i (b.servers.length : Int)
    if h : 0 ≤ r ∧ r.toNat < b.servers.length then
      some (b.servers.get ⟨r.toNat, h.2⟩)
    else none

/-- Source method `roundRobin`: atomically increment the shared counter (uint64 wrap)
and index by the new value modulo the pool size.  Returns the updated
backend state together with the selected server (`none` models a panic). -/
def Backend.roundRobin (b : Backend) : Backend × Option Server :=
  let count := (b.count + 1) % 2 ^ 64
  let b := { b with count := count }
  (b, b.selectAt (intOfUint64 count))

/-- Source method `random`: `rand.Intn(len(b.servers))` draws a value in `[0, n)`; the
pseudo-random draw is supplied as an oracle `randVal` reduced modulo the
pool size.  `rand.Intn` panics when the pool is empty (`none`). -/
def Backend.random (b : Backend) (randVal : Nat) : Option Server :=
  if b.servers.length = 0 then none
  else b.servers.get? (randVal % b.servers.length)

/-- Source method `ipHash`: FNV-1a of the caller's resolved IP, modulo the pool size. -/
def Backend.ipHash (b : Backend) (ctx : Request) : Option Server :=
  b.selectAt (Int.ofNat (hash32Once ctx.RealIP))

/-- Source method `headerHash`: FNV-1a of the value of the configured header (the empty
string when the header is absent), modulo the pool size. -/
def Backend.headerHash (b : Backend) (ctx : Request) : Option Server :=
  let value := ctx.Header.Get b.spec.LoadBalance.HeaderHashKey
  b.selectAt (Int.ofNat (hash32Once value))

/-- Source method `nextServer`: string-switch over the configured policy; an unknown
policy logs a BUG and falls through to `roundRobin`.  The random oracle is
threaded through for the `random` arm.  Returns the (possibly updated)
backend state and the chosen server. -/
def Backend.nextServer (b : Backend) (ctx : Request) (randVal : Nat) :
    Backend × Option Server :=
  if b.spec.LoadBalance.Policy = policyRoundRobin then b.roundRobin
  else if b.spec.LoadBalance.Policy = policyRandom then (b, b.random randVal)
  else if b.spec.LoadBalance.Policy = policyIPHash then (b, b.ipHash ctx)
  else if b.spec.LoadBalance.Policy = policyHeaderHash then (b, b.headerHash ctx)
  else b.roundRobin

/-- Iterated selection: `k` consecutive `roundRobin` selections, threading the counter state:
the list of selected servers in order. -/
def Backend.rrRun : Backend → Nat → List (Option Server)
  | _, 0 => []
  | b, k + 1 =>
    let p := b.roundRobin
    p.2 :: p.1.rrRun k

/-- Observable events of one dispatch, in program order: collaborator
calls, response mutations, tagging, telemetry. -/
inductive Event where
  | cacheLoad : Event
  | cacheStore : Event
  | addTag : String → Event
  | setStatusCode : Nat → Event
  | adaptRequest : Event
  | clientDo : Event
  | codeCount : String → Nat → Event
  | copyHeaders : Event
  | setBody : Event
  | responseGotFunc : Nat → Event
  | onFinish : Event
  | adaptResponse : Event
  deriving DecidableEq, Repr

/-- Environment of one dispatch: what the out-of-scope collaborators and
the network return.  `cacheHit` is what `memoryCache.Load` reports,
`newReqErr` a non-nil error from `http.NewRequest`, `doResult` the outcome
of `client.Do` (an error or a backend status code), `randVal` the
pseudo-random oracle. -/
structure Env where
  cacheHit : Bool
  newReqErr : Option String
  doResult : Except String Nat
  randVal : Nat
  deriving Repr

/-- Source method `HandleWithResponse` handles HTTPContext with returning response,
modelled as the ordered list of observable events of the dispatch plus the
updated backend state.  `none` models a panic during server selection
(empty pool).  A registered `defer memoryCache.Store` fires at the end of
every later exit path, exactly as Go's `defer` does. -/
def Backend.HandleWithResponse (b : Backend) (ctx : Request) (env : Env) :
    Option (Backend × List Event) :=
  let cacheEvents := if b.memoryCache then [Event.cacheLoad] else []
  if b.memoryCache && env.cacheHit then
    some (b, cacheEvents)
  else
    let deferStore := if b.memoryCache then [Event.cacheStore] else []
    match b.nextServer ctx env.randVal with
    | (_, none) => none
    | (b', some server) =>
      let ev0 := cacheEvents ++
        [Event.addTag ("backendAddr:" ++ server.URL), Event.adaptRequest]
      match env.newReqErr with
      | some e =>
        some (b', ev0 ++
          [Event.setStatusCode StatusInternalServerError,
           Event.addTag ("backendBug:" ++ e)] ++ deferStore)
      | none =>
        let ev1 := ev0 ++ [Event.clientDo]
        match env.doResult with
        | Except.error e =>
          some (b', ev1 ++
            [Event.setStatusCode StatusServiceUnavailable,
             Event.addTag ("backendErr:" ++ e)] ++ deferStore)
        | Except.ok status =>
          let ev2 := ev1 ++
            [Event.codeCount server.URL status,
             Event.setStatusCode status,
             Event.addTag ("backendCode:" ++ toString status),
             Event.copyHeaders, Event.setBody]
          let ev3 := ev2 ++ (List.range b.responseGotFuncs).map Event.responseGotFunc
          some (b', ev3 ++ [Event.onFinish] ++ deferStore)

/-! ### Concrete instances used to exercise the proved theorems -/

/-- A round-robin load balance configuration. -/
def exLBRoundRobin : LoadBalance := { Policy := "roundRobin", HeaderHashKey := "" }

/-- A three-server pool, round-robin policy, fresh counter, no
collaborators. -/
def exBackend : Backend :=
  { spec := { ServersTags := []
              Servers := [{ URL := "http://a", Tags := [] },
                          { URL := "http://b", Tags := [] },
                          { URL := "http://c", Tags := [] }]
              LoadBalance := exLBRoundRobin
              Adaptor := false
              MemoryCache := false }
    servers := [{ URL := "http://a", Tags := [] },
                { URL := "http://b", Tags := [] },
                { URL := "http://c", Tags := [] }]
    count := 0
    adaptor := false
    memoryCache := false
    responseGotFuncs := 0 }

/-- A plain request with no headers. -/
def exRequest : Request :=
  { Method := "GET", Path := "/", Header := { entries := [] }
    RealIP := "10.0.0.1", Body := "" }

/-- An environment where the outbound call succeeds with status 200. -/
def exEnvOk : Env :=
  { cacheHit := false, newReqErr := none, doResult := Except.ok 200, randVal := 0 }

/-- An environment where the outbound call fails at the transport layer. -/
def exEnvErr : Env :=
  { cacheHit := false, newReqErr := none
    doResult := Except.error "dial tcp: connection refused", randVal := 0 }

/-- An environment reporting a cache hit. -/
def exEnvHit : Env :=
  { cacheHit := true, newReqErr := none, doResult := Except.ok 200, randVal := 0 }

/-- The trace of `exBackend` dispatching `exRequest` under `exEnvErr`
(round-robin lands on the second server on a fresh counter). -/
def exErrTrace : List Event :=
  [Event.addTag "backendAddr:http://b", Event.adaptRequest, Event.clientDo,
   Event.setStatusCode StatusServiceUnavailable,
   Event.addTag "backendErr:dial tcp: connection refused"]

/-- Like `exBackend` but with an adaptor collaborator configured. -/
def exAdaptorBackend : Backend :=
  { exBackend with adaptor := true }

/-- The trace of `exAdaptorBackend` dispatching `exRequest` under
`exEnvOk`. -/
def exOkTrace : List Event :=
  [Event.addTag "backendAddr:http://b", Event.adaptRequest, Event.clientDo,
   Event.codeCount "http://b" 200, Event.setStatusCode 200,
   Event.addTag "backendCode:200", Event.copyHeaders, Event.setBody,
   Event.onFinish]

/-- Like `exBackend` but with a memory-cache collaborator configured. -/
def exCacheBackend : Backend :=
  { exBackend with memoryCache := true }

/-- The trace of `exCacheBackend` dispatching `exRequest` under `exEnvOk`
(a cache miss followed by a successful forward). -/
def exMissTrace : List Event :=
  [Event.cacheLoad,
   Event.addTag "backendAddr:http://b", Event.adaptRequest, Event.clientDo,
   Event.codeCount "http://b" 200, Event.setStatusCode 200,
   Event.addTag "backendCode:200", Event.copyHeaders, Event.setBody,
   Event.onFinish, Event.cacheStore]

/-- A two-server backend using the header-hash policy on `X-User`. -/
def exHHBackend : Backend :=
  { spec := { ServersTags := []
              Servers := [{ URL := "http://a", Tags := [] },
                          { URL := "http://b", Tags := [] }]
              LoadBalance := { Policy := "headerHash", HeaderHashKey := "X-User" }
              Adaptor := false
              MemoryCache := false }
    servers := [{ URL := "http://a", Tags := [] },
                { URL := "http://b", Tags := [] }]
    count := 0
    adaptor := false
    memoryCache := false
    responseGotFuncs := 0 }

/-- A request carrying the configured header with an empty-string value. -/
def exReqEmptyHeader : Request :=
  { exRequest with Header := { entries := [("X-User", "")] } }

/-- Like `exBackend` but configured with a policy name that is none of the
four known policies. -/
def exUnknownPolicyBackend : Backend :=
  { exBackend with
    spec := { exBackend.spec with
              LoadBalance := { Policy := "leastConn", HeaderHashKey := "" } } }

/-- A spec whose tag filter picks zero servers (the filter requires a tag
no server carries). -/
def mismatchedSpec : Spec :=
  { ServersTags := ["v9"]
    Servers := [{ URL := "http://a", Tags := ["v1"] }]
    LoadBalance := exLBRoundRobin
    Adaptor := false
    MemoryCache := false }

/-- The end-to-end scenario of the spec: three servers tagged v1, v1, v2
and the filter `[v1]`. -/
def exTagSpec : Spec :=
  { ServersTags := ["v1"]
    Servers := [{ URL := "A", Tags := ["v1"] },
                { URL := "B", Tags := ["v1"] },
                { URL := "C", Tags := ["v2"] }]
    LoadBalance := exLBRoundRobin
    Adaptor := false
    MemoryCache := false }

/-- An untagged deployment: empty filter, no server tags. -/
def exUntaggedSpec : Spec :=
  { ServersTags := []
    Servers := [{ URL := "http://a", Tags := [] }, { URL := "http://b", Tags := [] }]
    LoadBalance := exLBRoundRobin
    Adaptor := false
    MemoryCache := false }

/-! ### Helper lemmas -/

/-- A string has length zero exactly when it is the empty string. -/
theorem string_length_eq_zero_iff (s : String) : s.length = 0 ↔ s = "" := by
  obtain ⟨data⟩ := s
  simp [String.length, String.ext_iff]

/-- On a non-empty pool, Go indexing by a non-negative value reduces to
plain `Nat` modulo: no panic can occur. -/
theorem selectAt_ofNat (b : Backend) (n : Nat) (hN : 0 < b.servers.length) :
    b.selectAt (Int.ofNat n) = b.servers.get? (n % b.servers.length) := by
  have hlen : ¬ b.servers.length = 0 := by omega
  have hmod : n % b.servers.length < b.servers.length := Nat.mod_lt n hN
  have key : Int.tmod (Int.ofNat n) (b.servers.length : Int)
      = Int.ofNat (n % b.servers.length) :=
    (Int.ofNat_tmod n b.servers.length).symm
  simp only [Backend.selectAt, if_neg hlen]
  rw [dif_pos (And.intro (by rw [key]; exact Int.ofNat_nonneg _)
    (by rw [key]; simpa using hmod))]
  rw [List.get?_eq_get hmod]
  refine congrArg (fun i => some (b.servers.get i)) (Fin.ext ?_)
  show (Int.tmod (Int.ofNat n) (b.servers.length : Int)).toNat = n % b.servers.length
  rw [key]
  rfl

/-- One `roundRobin` step below the wrap/sign thresholds: the counter goes
up by one and the selection is the new counter value modulo the pool
size. -/
theorem roundRobin_succ (b : Backend) (hcount : b.count + 1 < 2 ^ 63)
    (hN : 0 < b.servers.length) :
    b.roundRobin = ({ b with count := b.count + 1 },
      b.servers.get? ((b.count + 1) % b.servers.length)) := by
  have h64 : b.count + 1 < 2 ^ 64 := by omega
  have hint : intOfUint64 (b.count + 1) = Int.ofNat (b.count + 1) := by
    unfold intOfUint64
    rw [if_pos hcount]
    rfl
  simp only [Backend.roundRobin, Nat.mod_eq_of_lt h64, hint]
  exact congrArg _ (selectAt_ofNat { b with count := b.count + 1 } (b.count + 1) hN)

/-- Iterated `roundRobin` from an arbitrary counter position below the sign
threshold: the selections are the successive counter values modulo the pool
size. -/
theorem rrRun_formula (k : Nat) : ∀ (b : Backend), 0 < b.servers.length →
    b.count + k < 2 ^ 63 →
    b.rrRun k = (List.range k).map
      (fun i => b.servers.get? ((b.count + i + 1) % b.servers.length)) := by
  induction k with
  | zero => intro b _ _; rfl
  | succ k ih =>
    intro b hN hbound
    have h1 : b.count + 1 < 2 ^ 63 := by omega
    show (b.roundRobin).2 :: (b.roundRobin).1.rrRun k = _
    rw [roundRobin_succ b h1 hN]
    rw [ih { b with count := b.count + 1 } hN (by simp only []; omega)]
    rw [List.range_succ_eq_map, List.map_cons, List.map_map]
    refine congrArg₂ _ (by simp) ?_
    refine List.map_congr_left ?_
    intro i _
    simp only [Function.comp]
    refine congrArg _ ?_
    refine congrArg₂ _ ?_ rfl
    omega

/-- `N` consecutive residues `(c+1) % N, ..., (c+N) % N` form a permutation
of `0, ..., N-1`. -/
theorem consecutive_residues_perm (c N : Nat) (hN : 0 < N) :
    List.Perm ((List.range N).map (fun i => (c + i + 1) % N)) (List.range N) := by
  have hnd : ((List.range N).map (fun i => (c + i + 1) % N)).Nodup := by
    refine List.Nodup.map_on ?_ (List.nodup_range N)
    intro i hi j hj hij
    rw [List.mem_range] at hi hj
    have hmod : (c + 1 + i) % N = (c + 1 + j) % N := by
      rw [Nat.add_right_comm c 1 i, Nat.add_right_comm c 1 j]
      exact hij
    have hcan := Nat.ModEq.add_left_cancel' (c + 1) hmod
    have : i % N = j % N := hcan
    rwa [Nat.mod_eq_of_lt hi, Nat.mod_eq_of_lt hj] at this
  have hsub : ((List.range N).map (fun i => (c + i + 1) % N)) ⊆ List.range N := by
    intro x hx
    rw [List.mem_map] at hx
    obtain ⟨i, _, rfl⟩ := hx
    exact List.mem_range.mpr (Nat.mod_lt _ hN)
  exact (hnd.subperm hsub).perm_of_length_le (by simp)

/-- In both branches of the source, `pickServers` is the order-preserving
filter keeping the servers whose tags contain every filter tag. -/
theorem pickServers_eq_filter (s : Spec) :
    s.pickServers = s.Servers.filter
      (fun server => s.ServersTags.all (fun tag => StrInSlice tag server.Tags)) := by
  dsimp only [Spec.pickServers]
  split
  · next h =>
    rw [Bool.and_eq_true] at h
    have htags : s.ServersTags = [] := by
      have := h.1
      rwa [List.isEmpty_iff] at this
    rw [htags]
    simp
  · rfl

/-! ### Claim theorems -/

/-- C1: round-robin selection over a pool of `N ≥ 1` servers starting from
a fresh counter of 0: the i-th selection (1-based) returns the server at
index `i mod N` (stated 0-based: selection number `i+1` picks index
`(i+1) mod N`), so the very first selection lands on index `1 mod N`
(index 1, not 0, whenever `N ≥ 2`), and the indices of any `N` consecutive
selections from the fresh counter are a permutation of `[0, N)` — every
index is chosen exactly once.  The bound `N < 2^63` is Go's slice-length
bound. -/
theorem roundRobin_first_cycle (b : Backend) (hc : b.count = 0)
    (hN : 0 < b.servers.length) (hbound : b.servers.length < 2 ^ 63) :
    b.rrRun b.servers.length
        = (List.range b.servers.length).map
            (fun i => b.servers.get? ((i + 1) % b.servers.length))
      ∧ List.Perm
          ((List.range b.servers.length).map (fun i => (i + 1) % b.servers.length))
          (List.range b.servers.length)
      ∧ (2 ≤ b.servers.length → b.rrRun 1 = [b.servers.get? 1]) := by
  refine ⟨?_, ?_, ?_⟩
  · have h := rrRun_formula b.servers.length b hN (by omega)
    rw [hc] at h
    simpa using h
  · simpa using consecutive_residues_perm 0 b.servers.length hN
  · intro h2
    have h := rrRun_formula 1 b hN (by omega)
    rw [hc] at h
    rw [h]
    simp [List.range_succ, Nat.mod_eq_of_lt (show 1 < b.servers.length by omega)]

/-- Witness for C1 at the concrete three-server backend with a fresh
counter. -/
theorem roundRobin_first_cycle_witness :
    exBackend.rrRun exBackend.servers.length
        = (List.range exBackend.servers.length).map
            (fun i => exBackend.servers.get? ((i + 1) % exBackend.servers.length))
      ∧ List.Perm
          ((List.range exBackend.servers.length).map
            (fun i => (i + 1) % exBackend.servers.length))
          (List.range exBackend.servers.length)
      ∧ (2 ≤ exBackend.servers.length → exBackend.rrRun 1 = [exBackend.servers.get? 1]) :=
  roundRobin_first_cycle exBackend rfl (by decide) (by decide)

/-- C3: server-pool filtering.  If the tag filter is empty and no server
carries a tag, `pickServers` is the full configured list; in every case a
server is a member of the result iff it is configured and its tags contain
every filter tag; and the result is an order-stable subsequence of the
configured list. -/
theorem pickServers_characterization (s : Spec) :
    (s.ServersTags = [] → (∀ srv ∈ s.Servers, srv.Tags = []) →
      s.pickServers = s.Servers)
    ∧ (∀ srv : Server, srv ∈ s.pickServers ↔
        srv ∈ s.Servers ∧ ∀ tag ∈ s.ServersTags, tag ∈ srv.Tags)
    ∧ s.pickServers.Sublist s.Servers := by
  have hf := pickServers_eq_filter s
  refine ⟨?_, ?_, ?_⟩
  · intro h1 _h2
    rw [hf, h1]
    simp
  · intro srv
    rw [hf, List.mem_filter]
    simp [StrInSlice, List.all_eq_true]
  · rw [hf]
    exact List.filter_sublist s.Servers

/-- Witness for C3: the spec's own scenario (filter `[v1]` over servers
tagged v1, v1, v2) contains server B, and an untagged deployment keeps the
full list. -/
theorem pickServers_characterization_witness :
    ({ URL := "B", Tags := ["v1"] } : Server) ∈ exTagSpec.pickServers
    ∧ exUntaggedSpec.pickServers = exUntaggedSpec.Servers :=
  ⟨((pickServers_characterization exTagSpec).2.1 _).mpr (by decide),
   (pickServers_characterization exUntaggedSpec).1 rfl (by decide)⟩

/-- C4: `Spec.Validate` errors exactly when the tag-filtered pool is
empty: zero picked servers is rejected at validation time and at least one
picked server passes. -/
theorem spec_validate_error_iff_empty_pool (s : Spec) :
    (s.Validate).isSome ↔ s.pickServers.length = 0 := by
  dsimp only [Spec.Validate]
  split <;> simp_all

/-- Witness for C4: the spec whose filter picks no server is rejected, and
the spec's scenario spec passes. -/
theorem spec_validate_error_iff_empty_pool_witness :
    (mismatchedSpec.Validate).isSome ∧ ¬ (exTagSpec.Validate).isSome :=
  ⟨(spec_validate_error_iff_empty_pool mismatchedSpec).mpr (by decide),
   fun h => by
    have := (spec_validate_error_iff_empty_pool exTagSpec).mp h
    exact absurd this (by decide)⟩

/-- C9: `LoadBalance.Validate` errors exactly when the policy is
`headerHash` and the header key is the empty string; every other
combination passes. -/
theorem loadBalance_validate_error_iff (lb : LoadBalance) :
    (lb.Validate).isSome ↔
      (lb.Policy = policyHeaderHash ∧ lb.HeaderHashKey = "") := by
  dsimp only [LoadBalance.Validate]
  split
  · next h =>
    rw [Bool.and_eq_true, beq_iff_eq, Nat.beq_eq_true_eq] at h
    simp [h.1, (string_length_eq_zero_iff _).mp h.2]
  · next h =>
    rw [Bool.and_eq_true, beq_iff_eq, Nat.beq_eq_true_eq] at h
    push_neg at h
    simp only [Option.isSome_none, Bool.false_eq_true, false_iff]
    intro hc
    rcases Nat.eq_zero_or_pos lb.HeaderHashKey.length with hz | hp
    · exact absurd hz (h hc.1)
    · rw [hc.2] at hp
      simp at hp

/-- Witness for C9: a headerHash policy with an empty key is rejected, and
a roundRobin policy with an empty key passes. -/
theorem loadBalance_validate_error_iff_witness :
    (LoadBalance.Validate { Policy := "headerHash", HeaderHashKey := "" }).isSome
    ∧ ¬ (exLBRoundRobin.Validate).isSome :=
  ⟨(loadBalance_validate_error_iff _).mpr ⟨rfl, rfl⟩,
   fun h => by
    have := (loadBalance_validate_error_iff exLBRoundRobin).mp h
    exact absurd this.1 (by decide)⟩

/-- C7: header-hash selection on a request that lacks the configured
header returns exactly the same server as header-hash selection on a
request whose configured header is present with the empty-string value,
for every backend (hence every server pool). -/
theorem headerHash_missing_header_eq_empty (b : Backend) (r1 r2 : Request)
    (h1 : r1.Header.entries.find?
      (fun p => p.1 == b.spec.LoadBalance.HeaderHashKey) = none)
    (h2 : r2.Header.entries.find?
      (fun p => p.1 == b.spec.LoadBalance.HeaderHashKey)
      = some (b.spec.LoadBalance.HeaderHashKey, "")) :
    b.headerHash r1 = b.headerHash r2 := by
  dsimp only [Backend.headerHash, HTTPHeader.Get]
  rw [h1, h2]

/-- Witness for C7: the two-server header-hash backend treats a
header-less request and a request carrying `X-User:` empty alike. -/
theorem headerHash_missing_header_eq_empty_witness :
    exHHBackend.headerHash exRequest = exHHBackend.headerHash exReqEmptyHeader :=
  headerHash_missing_header_eq_empty exHHBackend exRequest exReqEmptyHeader rfl rfl

/-- C8: with a policy value that is none of roundRobin, random, ipHash or
headerHash, `nextServer` does not fail the request: it returns exactly
what the round-robin policy would return (same selected server and same
counter update). -/
theorem nextServer_unknown_policy (b : Backend) (ctx : Request) (randVal : Nat)
    (h : b.spec.LoadBalance.Policy ∉
      [policyRoundRobin, policyRandom, policyIPHash, policyHeaderHash]) :
    b.nextServer ctx randVal = b.roundRobin := by
  simp only [List.mem_cons, List.not_mem_nil, or_false, not_or] at h
  obtain ⟨h1, h2, h3, h4⟩ := h
  dsimp only [Backend.nextServer]
  rw [if_neg h1, if_neg h2, if_neg h3, if_neg h4]

/-- Witness for C8 at a backend configured with the unknown policy
`leastConn`. -/
theorem nextServer_unknown_policy_witness :
    exUnknownPolicyBackend.nextServer exRequest 0 = exUnknownPolicyBackend.roundRobin :=
  nextServer_unknown_policy exUnknownPolicyBackend exRequest 0 (by decide)

/-- C10: `New` performs no validation: it is total, and for every spec it
returns the backend whose pool is the tag-filtered list with a zero
counter.  On the concrete spec whose filter picks zero servers,
`Spec.Validate` errors, yet `New` still produces a backend — on which
round-robin selection panics (modulo zero, modelled `none`).  The
in-bounds guarantee of round-robin selection holds under the precondition
that the filtered pool is non-empty. -/
theorem new_skips_validation :
    (∀ s : Spec, New s =
      { spec := s, servers := s.pickServers, count := 0, adaptor := s.Adaptor,
        memoryCache := s.MemoryCache, responseGotFuncs := 0 })
    ∧ (mismatchedSpec.Validate).isSome
    ∧ (New mismatchedSpec).servers = []
    ∧ ((New mismatchedSpec).roundRobin).2 = none
    ∧ (∀ b : Backend, 0 < b.servers.length → b.count + 1 < 2 ^ 63 →
        ∃ srv : Server, (b.roundRobin).2 = some srv) := by
  refine ⟨fun s => rfl, by decide, by decide, by decide, ?_⟩
  intro b hN hc
  rw [roundRobin_succ b hc hN]
  exact ⟨_, List.get?_eq_get (Nat.mod_lt _ hN)⟩

/-- Witness for C10 at the concrete three-server backend: with a non-empty
pool, round-robin selection does return a server. -/
theorem new_skips_validation_witness :
    ∃ srv : Server, (exBackend.roundRobin).2 = some srv :=
  new_skips_validation.2.2.2.2 exBackend (by decide) (by decide)

/-- C2 counter-evidence: on the response-returning dispatch path, response
adaptation is never run — no execution of `HandleWithResponse`, in
particular none with an adaptor configured and a successful forwarded
call, ever emits the `adaptResponse` event (the source defines the
`adaptResponse` helper but never calls it). -/
theorem handleWithResponse_no_adaptResponse (b : Backend) (ctx : Request)
    (env : Env) (b' : Backend) (evs : List Event)
    (hrun : b.HandleWithResponse ctx env = some (b', evs)) :
    Event.adaptResponse ∉ evs := by
  dsimp only [Backend.HandleWithResponse] at hrun
  split at hrun
  · simp only [Option.some.injEq, Prod.mk.injEq] at hrun
    obtain ⟨-, rfl⟩ := hrun
    cases hmc : b.memoryCache <;> simp [hmc]
  · split at hrun
    · exact absurd hrun (by simp)
    · split at hrun
      · simp only [Option.some.injEq, Prod.mk.injEq] at hrun
        obtain ⟨-, rfl⟩ := hrun
        cases hmc : b.memoryCache <;> simp [hmc]
      · split at hrun
        · simp only [Option.some.injEq, Prod.mk.injEq] at hrun
          obtain ⟨-, rfl⟩ := hrun
          cases hmc : b.memoryCache <;> simp [hmc]
        · simp only [Option.some.injEq, Prod.mk.injEq] at hrun
          obtain ⟨-, rfl⟩ := hrun
          cases hmc : b.memoryCache <;> simp [hmc]

/-- Witness for C2's theorem: the concrete backend with an adaptor
configured and a successful (status 200) forwarded call still produces a
trace without response adaptation. -/
theorem handleWithResponse_no_adaptResponse_witness :
    Event.adaptResponse ∉ exOkTrace :=
  handleWithResponse_no_adaptResponse exAdaptorBackend exRequest exEnvOk
    { exAdaptorBackend with count := 1 } exOkTrace rfl

/-- C5: on the response-returning path, when the outbound call fails (and
the dispatch was not short-circuited by a cache hit nor aborted on request
construction), the dispatcher sets the response status to 503 — and to no
other value — adds a tag carrying the underlying error text, performs no
Code Counter update, and issues the outbound call exactly once (no
retry). -/
theorem handleWithResponse_transport_failure (b : Backend) (ctx : Request)
    (env : Env) (e : String) (b' : Backend) (evs : List Event)
    (hmiss : (b.memoryCache && env.cacheHit) = false)
    (hreq : env.newReqErr = none)
    (hdo : env.doResult = Except.error e)
    (hrun : b.HandleWithResponse ctx env = some (b', evs)) :
    Event.setStatusCode StatusServiceUnavailable ∈ evs
    ∧ Event.addTag ("backendErr:" ++ e) ∈ evs
    ∧ (∀ c : Nat, Event.setStatusCode c ∈ evs → c = StatusServiceUnavailable)
    ∧ (∀ url : String, ∀ code : Nat, Event.codeCount url code ∉ evs)
    ∧ evs.count Event.clientDo = 1 := by
  dsimp only [Backend.HandleWithResponse] at hrun
  split at hrun
  · next h =>
    rw [hmiss] at h
    exact absurd h (by simp)
  · split at hrun
    · exact absurd hrun (by simp)
    · split at hrun
      · next e2 heq =>
        rw [hreq] at heq
        cases heq
      · split at hrun
        · next e2 heq =>
          rw [hdo] at heq
          injection heq with he
          subst he
          simp only [Option.some.injEq, Prod.mk.injEq] at hrun
          obtain ⟨-, rfl⟩ := hrun
          cases hmc : b.memoryCache <;>
            simp [hmc, List.count_append, List.count_cons, List.count_nil]
        · next status heq =>
          rw [hdo] at heq
          cases heq

/-- Witness for C5 at the concrete backend and a refused connection. -/
theorem handleWithResponse_transport_failure_witness :
    Event.setStatusCode StatusServiceUnavailable ∈ exErrTrace
    ∧ Event.addTag ("backendErr:" ++ "dial tcp: connection refused") ∈ exErrTrace
    ∧ (∀ c : Nat, Event.setStatusCode c ∈ exErrTrace → c = StatusServiceUnavailable)
    ∧ (∀ url : String, ∀ code : Nat, Event.codeCount url code ∉ exErrTrace)
    ∧ exErrTrace.count Event.clientDo = 1 :=
  handleWithResponse_transport_failure exBackend exRequest exEnvErr
    "dial tcp: connection refused" { exBackend with count := 1 } exErrTrace
    rfl rfl rfl rfl

/-- C6: with a cache collaborator configured, a reported hit ends the
dispatch immediately — the backend state (and so the round-robin counter)
is unchanged, and the trace is just the cache load: no outbound call, no
Code Counter update, no tag, and no cache Store.  On a miss, every
non-panicking exit of the dispatch (success or failure) invokes the cache
Store. -/
theorem handleWithResponse_cache_spec (b : Backend) (ctx : Request) (env : Env)
    (hm : b.memoryCache = true) :
    (env.cacheHit = true →
      b.HandleWithResponse ctx env = some (b, [Event.cacheLoad])
      ∧ Event.clientDo ∉ [Event.cacheLoad]
      ∧ (∀ url : String, ∀ code : Nat, Event.codeCount url code ∉ [Event.cacheLoad])
      ∧ (∀ t : String, Event.addTag t ∉ [Event.cacheLoad])
      ∧ Event.cacheStore ∉ [Event.cacheLoad])
    ∧ (env.cacheHit = false →
      ∀ (b' : Backend) (evs : List Event),
        b.HandleWithResponse ctx env = some (b', evs) →
        Event.cacheStore ∈ evs) := by
  constructor
  · intro hhit
    refine ⟨?_, by simp, by simp, by simp, by simp⟩
    dsimp only [Backend.HandleWithResponse]
    rw [if_pos (by rw [hm, hhit]; rfl)]
    rw [hm]
    rfl
  · intro hmissed b' evs hrun
    dsimp only [Backend.HandleWithResponse] at hrun
    split at hrun
    · next h =>
      rw [hmissed, Bool.and_false] at h
      exact absurd h (by simp)
    · split at hrun
      · exact absurd hrun (by simp)
      · split at hrun
        · simp only [Option.some.injEq, Prod.mk.injEq] at hrun
          obtain ⟨-, rfl⟩ := hrun
          simp [hm]
        · split at hrun
          · simp only [Option.some.injEq, Prod.mk.injEq] at hrun
            obtain ⟨-, rfl⟩ := hrun
            simp [hm]
          · simp only [Option.some.injEq, Prod.mk.injEq] at hrun
            obtain ⟨-, rfl⟩ := hrun
            simp [hm]

/-- Witness for C6: the cache-configured backend under a hit returns the
one-event trace with its state unchanged, and under a miss with a
successful forward its trace ends in the cache Store. -/
theorem handleWithResponse_cache_spec_witness :
    exCacheBackend.HandleWithResponse exRequest exEnvHit
      = some (exCacheBackend, [Event.cacheLoad])
    ∧ Event.cacheStore ∈ exMissTrace :=
  ⟨((handleWithResponse_cache_spec exCacheBackend exRequest exEnvHit rfl).1 rfl).1,
   (handleWithResponse_cache_spec exCacheBackend exRequest exEnvOk rfl).2 rfl
     { exCacheBackend with count := 1 } exMissTrace rfl⟩

end HTTPBackend
